import Mathlib

/-!
Verification development for the query safety and parameterization
subsystem of the repository (agents/core/query_execution_agent.py and
agents/core/sql_agent.py).  Queries are modelled as lists of characters;
the security guard (QuerySecurityGuard.validate_query, whose source file
is not part of the snapshot) and the database driver
(DatabaseManager.execute_query_with_validation, an external collaborator)
are modelled as function parameters.  Every driver dispatch performed by
an operation is returned alongside its result so that claims of the form
"the driver is never contacted" can be stated.
-/

namespace QESpec

/-- Queries and fragments of query text are lists of characters. -/
abbrev Str := List Char

/-- The single-quote character, written via its code point. -/
def qc : Char := '\x27'

/-- Python str.upper, restricted to the ASCII texts this subsystem handles. -/
def toUpperL (s : Str) : Str := s.map Char.toUpper

/-- Characters stripped by Python str.strip (ASCII whitespace). -/
def isPySpace (c : Char) : Bool :=
  c = ' ' || c = '\t' || c = '\n' || c = '\r' || c = '\x0b' || c = '\x0c'

/-- Python str.strip: drop whitespace from both ends. -/
def stripL (s : Str) : Str :=
  ((s.dropWhile isPySpace).reverse.dropWhile isPySpace).reverse

/-- Python substring containment test (`pat in s`). -/
def containsSub : Str → Str → Bool
  | [], pat => pat.isEmpty
  | c :: r, pat => pat.isPrefixOf (c :: r) || containsSub r pat

/-- Python s.count for the two-character pattern percent-s, counting
non-overlapping occurrences left to right. -/
def countPS : Str → Nat
  | '%' :: 's' :: r => 1 + countPS r
  | _ :: r => countPS r
  | [] => 0

/-- Python s.split on a single quote: the list of maximal quote-free parts. -/
def splitq : Str → List Str
  | [] => [[]]
  | c :: r =>
    match splitq r, decide (c = qc) with
    | ps, true => [] :: ps
    | p :: ps, false => (c :: p) :: ps
    | [], false => [[c]]

/-- Rejoin quote-split parts, reinserting the quotes. -/
def joinQ : List Str → Str
  | [] => []
  | [p] => p
  | p :: q :: r => p ++ qc :: joinQ (q :: r)

/-- Double every percent character (the replace applied to a literal body). -/
def escPercent : Str → Str
  | [] => []
  | c :: r => if c = '%' then '%' :: '%' :: escPercent r else c :: escPercent r

/-- The action of re.sub with a quote-pair pattern on the quote-split parts:
consecutive parts are paired as matched literals whose bodies are
percent-escaped; a final unmatched quote and the text after it are left
untouched, exactly as the regex leaves them unmatched. -/
def escapeParts : List Str → List Str
  | p :: q :: r =>
    match r with
    | [] => [p, q]
    | _ => p :: escPercent q :: escapeParts r
  | other => other

/-- The literal-aware escaper of _prepare_query_parameters (lines 229-237):
every percent inside a single-quoted literal span is doubled, all other
characters pass through unchanged. -/
def escapeLiterals (s : Str) : Str := joinQ (escapeParts (splitq s))

/-- The symbolic user-scope marker replaced by _prepare_query_parameters. -/
def markerL : Str := "{user_id}".toList

/-- Python s.replace of the user-scope marker by the positional placeholder,
non-overlapping, left to right; the nine marker characters are matched
explicitly. -/
def replaceMarker : Str → Str
  | '\x7b' :: 'u' :: 's' :: 'e' :: 'r' :: '_' :: 'i' :: 'd' :: '\x7d' :: r =>
      '%' :: 's' :: replaceMarker r
  | c :: r => c :: replaceMarker r
  | [] => []

/-- Sum of placeholder counts over the even-indexed quote-split parts
(the parts outside string literals). -/
def countEvenParts : List Str → Nat
  | [] => 0
  | [p] => countPS p
  | p :: _ :: r => countPS p + countEvenParts r

/-- Number of placeholders outside single-quoted literal spans of a
template, computed as the source does (lines 239-246): split on single
quotes and count placeholder tokens in the even-indexed parts. -/
def phCount (t : Str) : Nat := countEvenParts (splitq t)

/-- The binder _prepare_query_parameters (lines 216-251): replace the
user-scope marker by a placeholder, percent-escape string literals, count
placeholders outside literals, and bind the user id once per placeholder. -/
def prepare_query_parameters (sql_query : Str) (user_id : Int) : Str × List Int :=
  let safe_query := escapeLiterals (replaceMarker sql_query)
  (safe_query, List.replicate (phCount safe_query) user_id)

/-- The forbidden mutating keywords, in source order. -/
def dangerousKeywords : List Str :=
  ["DROP", "DELETE", "INSERT", "UPDATE", "ALTER", "CREATE", "TRUNCATE"].map
    String.toList

/-- The structural validator _validate_sql_structure of sql_agent.py
(lines 241-268): reject empty text, non-SELECT starts, missing FROM,
missing WHERE or user_id reference, and any forbidden keyword occurring
space-bounded or string-initial followed by a space. -/
def validate_sql_structure (sql_query : Str) : Bool :=
  if sql_query.isEmpty then false
  else
    let u := toUpperL sql_query
    if !("SELECT".toList.isPrefixOf u) then false
    else if !(containsSub u "FROM".toList) then false
    else if !(containsSub u "WHERE".toList) || !(containsSub u "USER_ID".toList)
      then false
    else if dangerousKeywords.any (fun kw =>
        containsSub u (' ' :: (kw ++ [' '])) || (kw ++ [' ']).isPrefixOf u)
      then false
    else true

/-- The report returned by test_query_syntax. -/
structure SyntaxReport where
  syntax_valid : Bool
  has_select : Bool
  has_from : Bool
  has_where : Bool
  has_user_id : Bool
  dangerous_keywords : List Str
  query : Str
  timestamp : Str
deriving DecidableEq

/-- The syntax tester test_query_syntax of query_execution_agent.py
(lines 118-158): uppercase and strip the query, collect every forbidden
keyword occurring as a plain substring, and record clause flags.  The
timestamp argument stands for datetime.now. -/
def test_query_syntax (now : Str) (sql_query : Str) : SyntaxReport :=
  let u := stripL (toUpperL sql_query)
  let found := dangerousKeywords.filter (fun kw => containsSub u kw)
  let hsel := "SELECT".toList.isPrefixOf u
  let hfrom := containsSub u "FROM".toList
  { syntax_valid := hsel && hfrom && found.isEmpty
    has_select := hsel
    has_from := hfrom
    has_where := containsSub u "WHERE".toList
    has_user_id := containsSub u "USER_ID".toList
    dangerous_keywords := found
    query := sql_query
    timestamp := now }

/-- A database cell value: an integer, a string, or a date/time value
carrying its isoformat text. -/
inductive Value where
  | intV : Int → Value
  | strV : Str → Value
  | dtV : Str → Value
deriving DecidableEq

/-- A result row: an association list from column names to values. -/
abbrev Row := List (Str × Value)

/-- Result processing of a single value (_process_query_results body):
date/time values are converted to their isoformat strings. -/
def processValue : Value → Value
  | .dtV s => .strV s
  | v => v

/-- The result normalizer _process_query_results (lines 253-282). -/
def process_query_results (results : List Row) : List Row :=
  results.map (fun row => row.map (fun kv => (kv.1, processValue kv.2)))

/-- What the driver DatabaseManager.execute_query_with_validation reports
when it returns normally. -/
structure DriverOutcome where
  success : Bool
  results : List Row
  row_count : Nat
  columns : List Str
  error : Str
deriving DecidableEq

/-- A driver call either returns an outcome dictionary or raises an
exception carrying a message. -/
inductive DriverResp where
  | ok : DriverOutcome → DriverResp
  | exn : Str → DriverResp
deriving DecidableEq

/-- The external database driver, modelled as a function from a template
and bound parameters to a response. -/
abbrev Driver := Str → List Int → DriverResp

/-- The security guard QuerySecurityGuard.validate_query, modelled as a
function returning the pair of an is-safe flag and a reason. -/
abbrev Guard := Str → Int → Bool × Str

/-- One dispatch to the driver: the template and parameters handed over. -/
abbrev Call := Str × List Int

/-- The dictionary returned by execute_query; keys absent from a given
return path are modelled as none. -/
structure QueryResult where
  success : Bool
  results : Option (List Row) := none
  raw_results : Option (List Row) := none
  row_count : Option Nat := none
  columns : Option (List Str) := none
  error : Option Str := none
  query : Str
  user_id : Int
  timestamp : Str
  execution_time : Option Str := none
  query_index : Option Nat := none
deriving DecidableEq

/-- The security-failure message built at line 45. -/
def secBlockMsg (reason : Str) : Str :=
  "Query blocked for security: ".toList ++ reason

/-- The coordinator execute_query (lines 26-91): validate, prepare
parameters, dispatch, process results; every exception (modelled by the
driver's exn response) becomes a failure value carrying its message.  The
function also returns the list of driver dispatches it performed. -/
def execute_query (g : Guard) (d : Driver) (now : Str) (sql_query : Str)
    (user_id : Int) : QueryResult × List Call :=
  let v := g sql_query user_id
  if v.1 = false then
    ({ success := false, error := some (secBlockMsg v.2), query := sql_query
       user_id := user_id, timestamp := now }, [])
  else
    let p := prepare_query_parameters sql_query user_id
    match d p.1 p.2 with
    | .exn e =>
        ({ success := false, error := some e, query := sql_query
           user_id := user_id, timestamp := now }, [(p.1, p.2)])
    | .ok r =>
        if r.success then
          ({ success := true, results := some (process_query_results r.results)
             raw_results := some r.results, row_count := some r.row_count
             columns := some r.columns, query := sql_query, user_id := user_id
             timestamp := now, execution_time := some now }, [(p.1, p.2)])
        else
          ({ success := false, error := some r.error, query := sql_query
             user_id := user_id, timestamp := now }, [(p.1, p.2)])

/-- Recursion of execute_multiple_queries carrying the running index:
each result is annotated with its query_index, and the loop breaks after
the first unsuccessful result. -/
def execute_multiple_go (g : Guard) (d : Driver) (now : Str) (user_id : Int) :
    List Str → Nat → List QueryResult × List Call
  | [], _ => ([], [])
  | q :: qs, i =>
    let rc := execute_query g d now q user_id
    let r := { rc.1 with query_index := some i }
    if r.success then
      let rest := execute_multiple_go g d now user_id qs (i + 1)
      (r :: rest.1, rc.2 ++ rest.2)
    else
      ([r], rc.2)

/-- The batch executor execute_multiple_queries (lines 93-116): sequential
execution in input order, stopping after the first failure. -/
def execute_multiple_queries (g : Guard) (d : Driver) (now : Str)
    (queries : List Str) (user_id : Int) : List QueryResult × List Call :=
  execute_multiple_go g d now user_id queries 0

/-- The size bucket _estimate_result_size (lines 284-303); the columns
argument is accepted and ignored, as in the source. -/
def estimate_result_size (row_count : Int) (_columns : List Str) : Str :=
  if row_count = 0 then "No data".toList
  else if row_count < 10 then "Small dataset".toList
  else if row_count < 100 then "Medium dataset".toList
  else if row_count < 1000 then "Large dataset".toList
  else "Very large dataset".toList

/-- The dictionary returned by get_query_statistics. -/
structure StatsResult where
  success : Bool
  total_rows : Option Int := none
  estimated_size : Option Str := none
  columns : Option (List Str) := none
  error : Option Str := none
  query : Str
  timestamp : Str
deriving DecidableEq

/-- The counting wrapper built at line 181. -/
def wrapStats (sql_query : Str) : Str :=
  "SELECT COUNT(*) as total_rows FROM (".toList ++ sql_query ++
    ") as subquery".toList

/-- The column key of the counting wrapper. -/
def totalRowsKey : Str := "total_rows".toList

/-- Association-list lookup for a row, modelling the dictionary access
at line 189. -/
def rowLookup (key : Str) : Row → Option Value
  | [] => none
  | kv :: r => if kv.1 = key then some kv.2 else rowLookup key r

/-- The statistics operation get_query_statistics (lines 169-214): wrap
the query in a counting subquery, prepare parameters, and dispatch — the
security guard field is available but never consulted, as in the source.
A missing or non-integer total_rows cell raises inside the try block and
is returned as a failure value. -/
def get_query_statistics (_g : Guard) (d : Driver) (now : Str)
    (sql_query : Str) (user_id : Int) : StatsResult × List Call :=
  let p := prepare_query_parameters (wrapStats sql_query) user_id
  match d p.1 p.2 with
  | .exn e =>
      ({ success := false, error := some e, query := sql_query
         timestamp := now }, [(p.1, p.2)])
  | .ok r =>
    if r.success then
      match r.results with
      | [] =>
          ({ success := true, total_rows := some 0
             estimated_size := some (estimate_result_size 0 r.columns)
             columns := some r.columns, query := sql_query
             timestamp := now }, [(p.1, p.2)])
      | row :: _ =>
        match rowLookup totalRowsKey row with
        | some (.intV n) =>
            ({ success := true, total_rows := some n
               estimated_size := some (estimate_result_size n r.columns)
               columns := some r.columns, query := sql_query
               timestamp := now }, [(p.1, p.2)])
        | _ =>
            ({ success := false, error := some totalRowsKey
               query := sql_query, timestamp := now }, [(p.1, p.2)])
    else
      ({ success := false, error := some r.error, query := sql_query
         timestamp := now }, [(p.1, p.2)])

end QESpec

namespace QESpec

lemma splitq_ne_nil (s : Str) : splitq s ≠ [] := by
  cases s with
  | nil => simp [splitq]
  | cons c r =>
    cases h : splitq r with
    | nil => simp [splitq, h]; split <;> simp
    | cons p ps => simp [splitq, h]; split <;> simp

lemma splitq_quote (t : Str) : splitq (qc :: t) = [] :: splitq t := by
  simp [splitq]

lemma splitq_cons_ne (x : Char) (t : Str) (hx : ¬ x = qc) :
    splitq (x :: t) = (x :: (splitq t).headI) :: (splitq t).tail := by
  cases h : splitq t with
  | nil => exact absurd h (splitq_ne_nil t)
  | cons p ps => simp [splitq, h, hx]

lemma splitq_no_quote_append (a t : Str) (ha : qc ∉ a) :
    splitq (a ++ qc :: t) = a :: splitq t := by
  induction a with
  | nil => simp [splitq]
  | cons x a ih =>
    simp only [List.mem_cons, not_or] at ha
    have hr := ih ha.2
    have hx : ¬ x = qc := fun h => ha.1 h.symm
    rw [List.cons_append, splitq_cons_ne x _ hx, hr]
    simp

lemma splitq_no_quote (s : Str) (hs : qc ∉ s) : splitq s = [s] := by
  induction s with
  | nil => simp [splitq]
  | cons x s ih =>
    simp only [List.mem_cons, not_or] at hs
    have hr := ih hs.2
    have hx : ¬ x = qc := fun h => hs.1 h.symm
    rw [splitq_cons_ne x _ hx, hr]
    simp

lemma escapeParts_ne_nil (l : List Str) (h : l ≠ []) : escapeParts l ≠ [] := by
  match l with
  | [p] => simp [escapeParts]
  | [p, q] => simp [escapeParts]
  | p :: q :: r :: rest => simp [escapeParts]

lemma escapeParts_cons_cons (p q : Str) (r : List Str) (h : r ≠ []) :
    escapeParts (p :: q :: r) = p :: escPercent q :: escapeParts r := by
  match r with
  | x :: xs => simp [escapeParts]

lemma joinQ_cons (p : Str) (l : List Str) (h : l ≠ []) :
    joinQ (p :: l) = p ++ qc :: joinQ l := by
  match l with
  | x :: xs => simp [joinQ]

lemma escapeLiterals_no_quote (s : Str) (hs : qc ∉ s) : escapeLiterals s = s := by
  unfold escapeLiterals
  rw [splitq_no_quote s hs]
  simp [escapeParts, joinQ]

lemma escapeLiterals_span (a b c : Str) (ha : qc ∉ a) (hb : qc ∉ b) :
    escapeLiterals (a ++ qc :: (b ++ qc :: c)) =
      a ++ qc :: (escPercent b ++ qc :: escapeLiterals c) := by
  unfold escapeLiterals
  rw [splitq_no_quote_append a _ ha, splitq_no_quote_append b _ hb,
    escapeParts_cons_cons _ _ _ (splitq_ne_nil c),
    joinQ_cons _ _ (by simp),
    joinQ_cons _ _ (escapeParts_ne_nil _ (splitq_ne_nil c))]

lemma escapeLiterals_unmatched (a b : Str) (ha : qc ∉ a) (hb : qc ∉ b) :
    escapeLiterals (a ++ qc :: b) = a ++ qc :: b := by
  unfold escapeLiterals
  rw [splitq_no_quote_append a b ha, splitq_no_quote b hb]
  simp [escapeParts, joinQ]

lemma replaceMarker_marker_append (s : Str) :
    replaceMarker (markerL ++ s) = '%' :: 's' :: replaceMarker s := by
  show replaceMarker ("{user_id}".toList ++ s) = _
  rfl

set_option maxHeartbeats 2000000 in
lemma replaceMarker_cons_ne (c : Char) (s : Str) (h : ¬ c = '\x7b') :
    replaceMarker (c :: s) = c :: replaceMarker s := by
  rw [replaceMarker.eq_def]
  split
  · rename_i heq
    injection heq with h1 _
    exact absurd h1 h
  · rename_i heq
    injection heq with h1 h2
    rw [h1, h2]
  · rename_i heq
    exact absurd heq (by simp)

lemma replaceMarker_no_brace (s : Str) (hs : '\x7b' ∉ s) : replaceMarker s = s := by
  induction s with
  | nil => rfl
  | cons x s ih =>
    simp only [List.mem_cons, not_or] at hs
    rw [replaceMarker_cons_ne x s (fun h => hs.1 h.symm), ih hs.2]

lemma replaceMarker_mid (a b : Str) (ha : '\x7b' ∉ a) (hb : '\x7b' ∉ b) :
    replaceMarker (a ++ (markerL ++ b)) = a ++ ('%' :: 's' :: b) := by
  induction a with
  | nil => simp [replaceMarker_marker_append, replaceMarker_no_brace b hb]
  | cons x a ih =>
    simp only [List.mem_cons, not_or] at ha
    rw [List.cons_append, replaceMarker_cons_ne x _ (fun h => ha.1 h.symm),
      ih ha.2, List.cons_append]

lemma containsSub_of_mid (a p b : Str) : containsSub (a ++ (p ++ b)) p = true := by
  induction a with
  | nil =>
    cases hpb : p ++ b with
    | nil =>
      have hp : p = [] := (List.append_eq_nil.mp hpb).1
      simp [containsSub, hpb, hp]
    | cons x r =>
      have hpre : p.isPrefixOf (x :: r) = true := by
        rw [← hpb]
        exact (List.isPrefixOf_iff_prefix).mpr (List.prefix_append p b)
      simp only [List.nil_append, hpb, containsSub, hpre, Bool.true_or]
  | cons x a ih =>
    simp [containsSub, ih]

lemma containsSub_of_isPrefix (p s : Str) (h : p.isPrefixOf s = true) :
    containsSub s p = true := by
  cases s with
  | nil =>
    have : p = [] := by
      cases p with
      | nil => rfl
      | cons y t => simp [List.isPrefixOf] at h
    simp [containsSub, this]
  | cons x r => simp [containsSub, h]

lemma escPercent_append (a b : Str) :
    escPercent (a ++ b) = escPercent a ++ escPercent b := by
  induction a with
  | nil => rfl
  | cons x r ih =>
    by_cases hx : x = '%' <;> simp [escPercent, hx, ih]

lemma escPercent_no_pct (b : Str) (h : '%' ∉ b) : escPercent b = b := by
  induction b with
  | nil => rfl
  | cons x r ih =>
    simp only [List.mem_cons, not_or] at h
    have hx : ¬ x = '%' := fun hh => h.1 hh.symm
    simp [escPercent, hx, ih h.2]

lemma qc_not_mem_escPercent (b : Str) (h : qc ∉ b) : qc ∉ escPercent b := by
  induction b with
  | nil => simp [escPercent]
  | cons x r ih =>
    simp only [List.mem_cons, not_or] at h
    have hr := ih h.2
    intro hm
    by_cases hx : x = '%'
    · simp only [escPercent, if_pos hx] at hm
      rcases List.mem_cons.mp hm with h1 | hm2
      · exact absurd h1 (by decide)
      rcases List.mem_cons.mp hm2 with h1 | h2
      · exact absurd h1 (by decide)
      · exact hr h2
    · simp only [escPercent, if_neg hx] at hm
      rcases List.mem_cons.mp hm with h1 | h2
      · exact h.1 h1
      · exact hr h2

end QESpec

namespace QESpec

lemma execute_query_query_field (g : Guard) (d : Driver) (now q : Str) (uid : Int) :
    (execute_query g d now q uid).1.query = q ∧
    (execute_query g d now q uid).1.user_id = uid ∧
    (execute_query g d now q uid).1.timestamp = now := by
  unfold execute_query
  by_cases hv : (g q uid).1 = false
  · simp [hv]
  · simp only [hv, if_false]
    cases hd : d (prepare_query_parameters q uid).1 (prepare_query_parameters q uid).2 with
    | exn e => simp [hd]
    | ok r =>
      by_cases hs : r.success = true
      · simp [hd, hs]
      · simp [hd, hs]

lemma execute_query_dispatch (g : Guard) (d : Driver) (now q : Str) (uid : Int)
    (hg : (g q uid).1 = true) :
    (execute_query g d now q uid).2 =
      [((prepare_query_parameters q uid).1, (prepare_query_parameters q uid).2)] := by
  unfold execute_query
  simp only [hg]
  cases hd : d (prepare_query_parameters q uid).1 (prepare_query_parameters q uid).2 with
  | exn e => simp [hd]
  | ok r =>
    by_cases hs : r.success = true
    · simp [hd, hs]
    · simp [hd, hs]

lemma execute_multiple_go_ordered (g : Guard) (d : Driver) (now : Str) (uid : Int)
    (qs : List Str) (i : Nat) :
    ((execute_multiple_go g d now uid qs i).1.map (fun r => r.query)) <+: qs := by
  induction qs generalizing i with
  | nil => simp [execute_multiple_go]
  | cons q t ih =>
    have hq : (execute_query g d now q uid).1.query = q :=
      (execute_query_query_field g d now q uid).1
    unfold execute_multiple_go
    by_cases hs : (execute_query g d now q uid).1.success = true
    · simp only [hs, if_true, List.map_cons]
      show (execute_query g d now q uid).1.query ::
          ((execute_multiple_go g d now uid t (i + 1)).1.map (fun r => r.query)) <+: q :: t
      rw [hq]
      exact (List.cons_prefix_cons).mpr ⟨rfl, ih (i + 1)⟩
    · simp only [hs, if_false, List.map_cons, List.map_nil]
      show [(execute_query g d now q uid).1.query] <+: q :: t
      rw [hq]
      exact (List.cons_prefix_cons).mpr ⟨rfl, List.nil_prefix⟩

lemma execute_multiple_go_fail_fast (g : Guard) (d : Driver) (now : Str) (uid : Int)
    (qs : List Str) (i : Nat) :
    ((∀ r ∈ (execute_multiple_go g d now uid qs i).1, r.success = true) ∧
      (execute_multiple_go g d now uid qs i).1.length = qs.length) ∨
    (∃ l x, (execute_multiple_go g d now uid qs i).1 = l ++ [x] ∧
      x.success = false ∧ ∀ r ∈ l, r.success = true) := by
  induction qs generalizing i with
  | nil => left; simp [execute_multiple_go]
  | cons q t ih =>
    unfold execute_multiple_go
    dsimp only
    by_cases hs : (execute_query g d now q uid).1.success = true
    · rw [if_pos hs]
      rcases ih (i + 1) with ⟨hall, hlen⟩ | ⟨l, x, heq, hx, hl⟩
      · left
        refine ⟨?_, by simp [hlen]⟩
        intro r hr
        rcases List.mem_cons.mp hr with h1 | h2
        · rw [h1]; exact hs
        · exact hall r h2
      · right
        refine ⟨{ (execute_query g d now q uid).1 with query_index := some i } :: l,
          x, by simp [heq], hx, ?_⟩
        intro r hr
        rcases List.mem_cons.mp hr with h1 | h2
        · rw [h1]; exact hs
        · exact hl r h2
    · rw [if_neg hs]
      right
      exact ⟨[], { (execute_query g d now q uid).1 with query_index := some i },
        by simp,
        show (execute_query g d now q uid).1.success = false by simpa using hs,
        by simp⟩

end QESpec

namespace QESpec

/-- A guard that rejects every query (used as a concrete witness input). -/
def gRejAll : Guard := fun _ _ => (false, "unsafe".toList)

/-- A guard that accepts every query. -/
def gOkAll : Guard := fun _ _ => (true, [])

/-- A driver that always succeeds with an empty result set. -/
def dOkEmpty : Driver := fun _ _ =>
  .ok { success := true, results := [], row_count := 0, columns := [], error := [] }

/-- A driver that always returns one counting row with total_rows five. -/
def dCount5 : Driver := fun _ _ =>
  .ok { success := true, results := [[("total_rows".toList, .intV 5)]],
        row_count := 1, columns := ["total_rows".toList], error := [] }

/-- A driver that always raises. -/
def dBoom : Driver := fun _ _ => .exn "database connection lost".toList

/-- A user-scoped example query. -/
def exScopedQ : Str := "SELECT * FROM t WHERE user_id = {user_id}".toList

/-- C1: for every query text and user identifier, when the security
validator returns a Rejected verdict, execute_query returns a
security-classified failure value and the database driver is never
contacted for that request. -/
theorem execute_query_rejected_no_dispatch (g : Guard) (d : Driver) (now q : Str)
    (uid : Int) (h : (g q uid).1 = false) :
    (execute_query g d now q uid).1.success = false ∧
    (execute_query g d now q uid).1.error = some (secBlockMsg (g q uid).2) ∧
    (execute_query g d now q uid).2 = [] := by
  unfold execute_query
  simp [h]

/-- Witness for C1 at a concrete rejecting guard. -/
theorem execute_query_rejected_no_dispatch_w :
    (execute_query gRejAll dCount5 [] exScopedQ 1).1.success = false ∧
    (execute_query gRejAll dCount5 [] exScopedQ 1).1.error =
      some (secBlockMsg "unsafe".toList) ∧
    (execute_query gRejAll dCount5 [] exScopedQ 1).2 = [] :=
  execute_query_rejected_no_dispatch gRejAll dCount5 [] exScopedQ 1 rfl

/-- C9: execute_query always returns a result value carrying the original
query text, the user id and the timestamp, and a driver exception is
converted into a failure value whose error is the exception's message. -/
theorem execute_query_result_shape (g : Guard) (d : Driver) (now q : Str)
    (uid : Int) :
    ((execute_query g d now q uid).1.query = q ∧
      (execute_query g d now q uid).1.user_id = uid ∧
      (execute_query g d now q uid).1.timestamp = now) ∧
    (∀ e : Str, (g q uid).1 = true →
      d (prepare_query_parameters q uid).1 (prepare_query_parameters q uid).2 =
        .exn e →
      (execute_query g d now q uid).1.success = false ∧
      (execute_query g d now q uid).1.error = some e) := by
  refine ⟨execute_query_query_field g d now q uid, ?_⟩
  intro e hg hd
  unfold execute_query
  simp [hg, hd]

/-- Witness for C9 at a concrete raising driver. -/
theorem execute_query_result_shape_w :
    (execute_query gOkAll dBoom [] exScopedQ 1).1.success = false ∧
    (execute_query gOkAll dBoom [] exScopedQ 1).1.error =
      some "database connection lost".toList :=
  (execute_query_result_shape gOkAll dBoom [] exScopedQ 1).2
    "database connection lost".toList rfl rfl

/-- The JOIN example of the specification. -/
def joinExQ : Str :=
  "SELECT * FROM a JOIN b ON a.user_id = {user_id} WHERE b.user_id = {user_id}".toList

/-- The template produced for the JOIN example. -/
def joinExT : Str :=
  "SELECT * FROM a JOIN b ON a.user_id = %s WHERE b.user_id = %s".toList

/-- C3: the bound parameter sequence has one element per placeholder
outside string-literal spans of the template, every element equals the
caller's user id, and the JOIN example binds the same user id twice. -/
theorem prepare_parameters_invariant (q : Str) (uid : Int) :
    ((prepare_query_parameters q uid).2.length =
        phCount (prepare_query_parameters q uid).1 ∧
      ∀ x ∈ (prepare_query_parameters q uid).2, x = uid) ∧
    ∀ u : Int, prepare_query_parameters joinExQ u = (joinExT, [u, u]) := by
  refine ⟨⟨by simp [prepare_query_parameters], ?_⟩, ?_⟩
  · intro x hx
    exact List.eq_of_mem_replicate (by simpa [prepare_query_parameters] using hx)
  · intro u
    show (escapeLiterals (replaceMarker joinExQ),
      List.replicate (phCount (escapeLiterals (replaceMarker joinExQ))) u) = _
    have h1 : escapeLiterals (replaceMarker joinExQ) = joinExT := by decide
    rw [h1, show phCount joinExT = 2 from by decide]
    rfl

/-- Witness for C3 using concrete inputs. -/
theorem prepare_parameters_invariant_w :
    (5 : Int) = 5 ∧ prepare_query_parameters joinExQ 42 = (joinExT, [42, 42]) :=
  ⟨(prepare_parameters_invariant exScopedQ 5).1.2 5 (by decide),
    (prepare_parameters_invariant [] 0).2 42⟩

end QESpec

namespace QESpec

/-- The percent-in-literal example of the specification. -/
def ex50Q : Str :=
  "SELECT * FROM events WHERE user_id = {user_id} AND label = ".toList ++
    qc :: ("50% off".toList ++ [qc])

/-- The template produced for the percent-in-literal example. -/
def ex50T : Str :=
  "SELECT * FROM events WHERE user_id = %s AND label = ".toList ++
    qc :: ("50%% off".toList ++ [qc])

/-- C4: escaping doubles every percent inside a single-quoted literal span
and leaves characters outside literal spans unchanged; on the percent
example one placeholder results and one parameter equal to the user id is
bound. -/
theorem escape_literal_spans :
    (∀ a b c : Str, qc ∉ a → qc ∉ b →
      escapeLiterals (a ++ qc :: (b ++ qc :: c)) =
        a ++ qc :: (escPercent b ++ qc :: escapeLiterals c)) ∧
    (∀ s : Str, qc ∉ s → escapeLiterals s = s) ∧
    ∀ u : Int, prepare_query_parameters ex50Q u = (ex50T, [u]) := by
  refine ⟨escapeLiterals_span, escapeLiterals_no_quote, ?_⟩
  intro u
  show (escapeLiterals (replaceMarker ex50Q),
    List.replicate (phCount (escapeLiterals (replaceMarker ex50Q))) u) = _
  have h1 : escapeLiterals (replaceMarker ex50Q) = ex50T := by decide
  rw [h1, show phCount ex50T = 1 from by decide]
  rfl

/-- Witness for C4 at concrete fragments. -/
theorem escape_literal_spans_w :
    escapeLiterals ("x = ".toList ++ qc :: ("50% off".toList ++ qc :: [])) =
      "x = ".toList ++ qc :: (escPercent "50% off".toList ++ qc :: escapeLiterals []) ∧
    escapeLiterals "SELECT 1".toList = "SELECT 1".toList :=
  ⟨escape_literal_spans.1 "x = ".toList "50% off".toList [] (by decide) (by decide),
    escape_literal_spans.2.1 "SELECT 1".toList (by decide)⟩

/-- C8: escaping is idempotent outside literal spans, and applying it
twice to a literal containing a single percent yields four percents. -/
theorem escape_twice_doubles :
    (∀ s : Str, qc ∉ s →
      escapeLiterals s = s ∧ escapeLiterals (escapeLiterals s) = s) ∧
    (∀ a c : Str, qc ∉ a →
      escapeLiterals (escapeLiterals (a ++ qc :: ('%' :: qc :: c))) =
        a ++ qc :: ('%' :: '%' :: '%' :: '%' :: qc ::
          escapeLiterals (escapeLiterals c))) := by
  constructor
  · intro s hs
    refine ⟨escapeLiterals_no_quote s hs, ?_⟩
    rw [escapeLiterals_no_quote s hs, escapeLiterals_no_quote s hs]
  · intro a c ha
    have h1 := escapeLiterals_span a ['%'] c ha (by decide)
    have h2 := escapeLiterals_span a ['%', '%'] (escapeLiterals c) ha (by decide)
    rw [show escPercent ['%'] = ['%', '%'] from by decide] at h1
    rw [show escPercent ['%', '%'] = ['%', '%', '%', '%'] from by decide] at h2
    calc escapeLiterals (escapeLiterals (a ++ qc :: ('%' :: qc :: c)))
        = escapeLiterals (a ++ qc :: (['%', '%'] ++ qc :: escapeLiterals c)) := by
          rw [show ('%' :: qc :: c : Str) = (['%'] ++ qc :: c : Str) from rfl, h1]
      _ = a ++ qc :: (['%', '%', '%', '%'] ++ qc ::
            escapeLiterals (escapeLiterals c)) := h2
      _ = a ++ qc :: ('%' :: '%' :: '%' :: '%' :: qc ::
            escapeLiterals (escapeLiterals c)) := by simp

/-- Witness for C8 at concrete fragments. -/
theorem escape_twice_doubles_w :
    escapeLiterals (escapeLiterals "SELECT 1".toList) = "SELECT 1".toList ∧
    escapeLiterals (escapeLiterals ("x = ".toList ++ qc :: ('%' :: qc :: []))) =
      "x = ".toList ++ qc :: ('%' :: '%' :: '%' :: '%' :: qc ::
        escapeLiterals (escapeLiterals [])) :=
  ⟨(escape_twice_doubles.1 "SELECT 1".toList (by decide)).2,
    escape_twice_doubles.2 "x = ".toList [] (by decide)⟩

end QESpec

namespace QESpec

/-- The mixed example: one scope marker outside literals and one inside a
single-quoted literal. -/
def mixQ : Str :=
  "SELECT x FROM t WHERE user_id = {user_id} AND note = ".toList ++
    qc :: ("ref {user_id} tag".toList ++ [qc])

/-- The template produced for the mixed example. -/
def mixT : Str :=
  "SELECT x FROM t WHERE user_id = %s AND note = ".toList ++
    qc :: ("ref %%s tag".toList ++ [qc])

/-- C10: a scope marker inside a single-quoted literal is still rewritten
to the placeholder before literal escaping, so its percent is doubled: the
literal's text becomes percent-percent-s in the template, and that
occurrence binds no parameter. -/
theorem marker_inside_literal :
    (∀ (b1 b2 : Str) (uid : Int), qc ∉ b1 → qc ∉ b2 →
      '\x7b' ∉ b1 → '\x7b' ∉ b2 → '%' ∉ b1 → '%' ∉ b2 →
      prepare_query_parameters (qc :: (b1 ++ (markerL ++ (b2 ++ [qc])))) uid =
        (qc :: ((b1 ++ ('%' :: '%' :: 's' :: b2)) ++ [qc]), [])) ∧
    ∀ uid : Int, prepare_query_parameters mixQ uid = (mixT, [uid]) := by
  constructor
  · intro b1 b2 uid hq1 hq2 hb1 hb2 hp1 hp2
    have hqb : qc ≠ '\x7b' := by decide
    have hrm : replaceMarker (qc :: (b1 ++ (markerL ++ (b2 ++ [qc])))) =
        qc :: (b1 ++ ('%' :: 's' :: (b2 ++ [qc]))) := by
      rw [replaceMarker_cons_ne qc _ hqb,
        replaceMarker_mid b1 (b2 ++ [qc]) hb1 (by
          intro hm
          rcases List.mem_append.mp hm with h | h
          · exact hb2 h
          · rcases List.mem_cons.mp h with h1 | h1
            · exact absurd h1.symm hqb
            · simp at h1)]
    have hB : qc ∉ b1 ++ ('%' :: 's' :: b2) := by
      intro hm
      rcases List.mem_append.mp hm with h | h
      · exact hq1 h
      rcases List.mem_cons.mp h with h1 | h1
      · exact absurd h1 (by decide)
      rcases List.mem_cons.mp h1 with h2 | h2
      · exact absurd h2 (by decide)
      · exact hq2 h2
    have hshape : qc :: (b1 ++ ('%' :: 's' :: (b2 ++ [qc]))) =
        [] ++ qc :: ((b1 ++ ('%' :: 's' :: b2)) ++ qc :: []) := by simp
    have hesc : escapeLiterals (qc :: (b1 ++ ('%' :: 's' :: (b2 ++ [qc])))) =
        qc :: ((escPercent (b1 ++ ('%' :: 's' :: b2))) ++ [qc]) := by
      rw [hshape, escapeLiterals_span [] _ [] (by simp) hB]
      simp [escapeLiterals, splitq, escapeParts, joinQ]
    have hpct : escPercent (b1 ++ ('%' :: 's' :: b2)) =
        b1 ++ ('%' :: '%' :: 's' :: b2) := by
      rw [escPercent_append, escPercent_no_pct b1 hp1]
      simp [escPercent, escPercent_no_pct b2 hp2]
    have hcount : phCount (qc :: ((b1 ++ ('%' :: '%' :: 's' :: b2)) ++ [qc])) = 0 := by
      have hB2 : qc ∉ b1 ++ ('%' :: '%' :: 's' :: b2) := by
        intro hm
        rcases List.mem_append.mp hm with h | h
        · exact hq1 h
        rcases List.mem_cons.mp h with h1 | h1
        · exact absurd h1 (by decide)
        rcases List.mem_cons.mp h1 with h2 | h2
        · exact absurd h2 (by decide)
        rcases List.mem_cons.mp h2 with h3 | h3
        · exact absurd h3 (by decide)
        · exact hq2 h3
      rw [phCount, splitq_quote,
        show ((b1 ++ ('%' :: '%' :: 's' :: b2)) ++ [qc] : Str) =
          (b1 ++ ('%' :: '%' :: 's' :: b2)) ++ qc :: [] from rfl,
        splitq_no_quote_append _ [] hB2]
      rfl
    show (escapeLiterals (replaceMarker (qc :: (b1 ++ (markerL ++ (b2 ++ [qc]))))),
      List.replicate (phCount (escapeLiterals (replaceMarker
        (qc :: (b1 ++ (markerL ++ (b2 ++ [qc])))))))  uid) = _
    rw [hrm, hesc, hpct, hcount]
    rfl
  · intro uid
    show (escapeLiterals (replaceMarker mixQ),
      List.replicate (phCount (escapeLiterals (replaceMarker mixQ))) uid) = _
    have h1 : escapeLiterals (replaceMarker mixQ) = mixT := by decide
    rw [h1, show phCount mixT = 1 from by decide]
    rfl

/-- Witness for C10 at concrete literal bodies. -/
theorem marker_inside_literal_w :
    prepare_query_parameters
        (qc :: ("ref ".toList ++ (markerL ++ (" tag".toList ++ [qc])))) 9 =
      (qc :: (("ref ".toList ++ ('%' :: '%' :: 's' :: " tag".toList)) ++ [qc]), []) :=
  marker_inside_literal.1 "ref ".toList " tag".toList 9 (by decide) (by decide)
    (by decide) (by decide) (by decide) (by decide)

end QESpec

namespace QESpec

/-- A query containing an odd number of single quotes (one unclosed
literal). -/
def oddQ : Str :=
  "SELECT a FROM t WHERE user_id = {user_id} AND s = ".toList ++ qc :: "abc".toList

/-- Counterexample to C7: a query with an odd number of single quotes is
not rejected — binding succeeds, the query is dispatched to the driver,
and execution reports success. -/
theorem odd_quote_cex :
    (execute_query gOkAll dOkEmpty [] oddQ 3).1.success = true ∧
    (execute_query gOkAll dOkEmpty [] oddQ 3).2 =
      [("SELECT a FROM t WHERE user_id = %s AND s = ".toList ++ qc :: "abc".toList,
        [3])] := by decide

/-- Number of single quotes in a query text. -/
def countQ (s : Str) : Nat := s.count qc

lemma splitq_parts_no_quote (s : Str) : ∀ x ∈ splitq s, qc ∉ x := by
  induction s with
  | nil =>
    intro x hx
    simp [splitq] at hx
    simp [hx]
  | cons c r ih =>
    by_cases hc : c = qc
    · subst hc
      rw [splitq_quote]
      intro x hx
      rcases List.mem_cons.mp hx with h1 | h1
      · simp [h1]
      · exact ih x h1
    · cases hps : splitq r with
      | nil => exact absurd hps (splitq_ne_nil r)
      | cons p ps =>
        rw [splitq_cons_ne c r hc, hps]
        intro x hx
        rcases List.mem_cons.mp hx with h1 | h1
        · subst h1
          intro hm
          rcases List.mem_cons.mp hm with h2 | h2
          · exact hc h2.symm
          · exact ih p (by rw [hps]; exact List.mem_cons_self p ps) h2
        · exact ih x (by rw [hps]; exact List.mem_cons_of_mem p h1)

lemma joinQ_splitq (s : Str) : joinQ (splitq s) = s := by
  induction s with
  | nil => rfl
  | cons c r ih =>
    by_cases hc : c = qc
    · subst hc
      rw [splitq_quote, joinQ_cons _ _ (splitq_ne_nil r), ih]
      rfl
    · cases hps : splitq r with
      | nil => exact absurd hps (splitq_ne_nil r)
      | cons p ps =>
        rw [splitq_cons_ne c r hc, hps]
        rw [hps] at ih
        cases ps with
        | nil =>
          show (c :: p : Str) = c :: r
          rw [show (p : Str) = r from ih]
        | cons q ps2 =>
          show (c :: p) ++ qc :: joinQ (q :: ps2) = c :: r
          rw [List.cons_append, ← joinQ_cons p (q :: ps2) (by simp), ih]

lemma splitq_length (s : Str) : (splitq s).length = countQ s + 1 := by
  induction s with
  | nil => simp [splitq, countQ]
  | cons c r ih =>
    by_cases hc : c = qc
    · subst hc
      rw [splitq_quote]
      simp [countQ, List.count_cons, ih]
    · cases hps : splitq r with
      | nil => exact absurd hps (splitq_ne_nil r)
      | cons p ps =>
        rw [splitq_cons_ne c r hc, hps]
        rw [hps] at ih
        simp at ih
        simp [countQ, List.count_cons, hc]
        simpa [countQ] using ih

/-- A text with an odd number of single quotes, presented as matched
literal spans (outside text, literal body) followed by the text before
and after the final unmatched quote. -/
def oddText (ps : List (Str × Str)) (a b : Str) : Str :=
  ps.foldr (fun p acc => p.1 ++ qc :: (p.2 ++ qc :: acc)) (a ++ qc :: b)

/-- The same text after literal-aware escaping: every matched literal
body is percent-escaped, the final unmatched quote and its tail are
untouched. -/
def oddEscaped (ps : List (Str × Str)) (a b : Str) : Str :=
  ps.foldr (fun p acc => p.1 ++ qc :: (escPercent p.2 ++ qc :: acc)) (a ++ qc :: b)

/-- Pair up the quote-split parts of an even-length list: matched spans
first, then the part before the final quote and the tail after it. -/
def pairUp : List Str → List (Str × Str) × Str × Str
  | [] => ([], [], [])
  | [a] => ([], a, [])
  | [a, b] => ([], a, b)
  | x :: y :: z :: r =>
    ((x, y) :: (pairUp (z :: r)).1, (pairUp (z :: r)).2)

lemma escapeLiterals_oddText (ps : List (Str × Str)) (a b : Str)
    (hps : ∀ p ∈ ps, qc ∉ p.1 ∧ qc ∉ p.2) (ha : qc ∉ a) (hb : qc ∉ b) :
    escapeLiterals (oddText ps a b) = oddEscaped ps a b := by
  induction ps with
  | nil => exact escapeLiterals_unmatched a b ha hb
  | cons p ps ih =>
    have hp := hps p (List.mem_cons_self p ps)
    have hrest := ih (fun x hx => hps x (List.mem_cons_of_mem p hx))
    show escapeLiterals (p.1 ++ qc :: (p.2 ++ qc :: oddText ps a b)) =
      p.1 ++ qc :: (escPercent p.2 ++ qc :: oddEscaped ps a b)
    rw [escapeLiterals_span p.1 p.2 (oddText ps a b) hp.1 hp.2, hrest]

lemma phCount_oddEscaped (ps : List (Str × Str)) (a b : Str)
    (hps : ∀ p ∈ ps, qc ∉ p.1 ∧ qc ∉ p.2) (ha : qc ∉ a) (hb : qc ∉ b) :
    phCount (oddEscaped ps a b) =
      (ps.map (fun p => countPS p.1)).sum + countPS a := by
  induction ps with
  | nil =>
    show phCount (a ++ qc :: b) = _
    rw [phCount, splitq_no_quote_append a b ha, splitq_no_quote b hb]
    show countPS a + countEvenParts [] = _
    simp [countEvenParts]
  | cons p ps ih =>
    have hp := hps p (List.mem_cons_self p ps)
    have hrest := ih (fun x hx => hps x (List.mem_cons_of_mem p hx))
    show phCount (p.1 ++ qc :: (escPercent p.2 ++ qc :: oddEscaped ps a b)) = _
    rw [phCount, splitq_no_quote_append p.1 _ hp.1,
      splitq_no_quote_append (escPercent p.2) _ (qc_not_mem_escPercent p.2 hp.2)]
    show countPS p.1 + countEvenParts (splitq (oddEscaped ps a b)) = _
    rw [← phCount, hrest]
    simp
    omega

lemma pairUp_joinQ (l : List Str) (hl : l.length % 2 = 0) (hne : l ≠ []) :
    joinQ l = oddText (pairUp l).1 (pairUp l).2.1 (pairUp l).2.2 := by
  match l with
  | [] => exact absurd rfl hne
  | [a] => simp at hl
  | [a, b] => simp [pairUp, joinQ, oddText]
  | x :: y :: z :: r =>
    have hr : (z :: r).length % 2 = 0 := by
      simp at hl ⊢
      omega
    have ih := pairUp_joinQ (z :: r) hr (by simp)
    show (x : Str) ++ qc :: joinQ (y :: z :: r) = _
    rw [show joinQ (y :: z :: r) = y ++ qc :: joinQ (z :: r) from rfl, ih]
    simp [pairUp, oddText]

lemma pairUp_no_quote (l : List Str) (hq : ∀ x ∈ l, qc ∉ x) :
    (∀ p ∈ (pairUp l).1, qc ∉ p.1 ∧ qc ∉ p.2) ∧
      qc ∉ (pairUp l).2.1 ∧ qc ∉ (pairUp l).2.2 := by
  match l with
  | [] => simp [pairUp]
  | [a] =>
    refine ⟨by simp [pairUp], ?_, by simp [pairUp]⟩
    simpa [pairUp] using hq a (by simp)
  | [a, b] =>
    refine ⟨by simp [pairUp], ?_, ?_⟩
    · simpa [pairUp] using hq a (by simp)
    · simpa [pairUp] using hq b (by simp)
  | x :: y :: z :: r =>
    have ih := pairUp_no_quote (z :: r) (fun w hw => hq w (List.mem_cons_of_mem x (List.mem_cons_of_mem y hw)))
    refine ⟨?_, ?_, ?_⟩
    · intro p hp
      simp only [pairUp, List.mem_cons] at hp
      rcases hp with h1 | h1
      · subst h1
        exact ⟨hq x (by simp), hq y (by simp)⟩
      · exact ih.1 p h1
    · simpa [pairUp] using ih.2.1
    · simpa [pairUp] using ih.2.2

set_option maxHeartbeats 2000000 in
lemma replaceMarker_cons_general (c : Char) (r : Str)
    (h : markerL.isPrefixOf (c :: r) = false) :
    replaceMarker (c :: r) = c :: replaceMarker r := by
  rw [replaceMarker.eq_def]
  split
  · rename_i rest heq
    exfalso
    have ht : markerL.isPrefixOf (markerL ++ rest) = true :=
      List.isPrefixOf_iff_prefix.mpr (List.prefix_append _ _)
    have hm9 : markerL ++ rest =
        '\x7b' :: 'u' :: 's' :: 'e' :: 'r' :: '_' :: 'i' :: 'd' :: '\x7d' ::
          rest := by
      rw [show markerL =
        ['\x7b', 'u', 's', 'e', 'r', '_', 'i', 'd', '\x7d'] from by decide]
      simp
    rw [heq, ← hm9, ht] at h
    exact absurd h (by simp)
  · rename_i heq
    injection heq with h1 h2
    rw [h1, h2]
  · rename_i heq
    exact absurd heq (by simp)

lemma countQ_replaceMarker_aux :
    ∀ (n : Nat) (s : Str), s.length = n → countQ (replaceMarker s) = countQ s := by
  intro n
  induction n using Nat.strong_induction_on with
  | _ n ih =>
    intro s hs
    cases hp : markerL.isPrefixOf s with
    | true =>
      obtain ⟨rest, hrest⟩ := List.isPrefixOf_iff_prefix.mp hp
      subst hrest
      rw [replaceMarker_marker_append]
      have hlen : rest.length < n := by
        rw [← hs]
        simp [markerL]
        omega
      have ih2 := ih rest.length hlen rest rfl
      show countQ ('%' :: 's' :: replaceMarker rest) = countQ (markerL ++ rest)
      simp only [countQ, List.count_cons, List.count_append]
      rw [show List.count qc (replaceMarker rest) = List.count qc rest from ih2,
        show List.count qc markerL = 0 from by decide]
      have e1 : (('%' : Char) == qc) = false := by decide
      have e2 : (('s' : Char) == qc) = false := by decide
      have e3 : ((qc : Char) == '%') = false := by decide
      have e4 : ((qc : Char) == 's') = false := by decide
      simp [e1, e2, e3, e4]
    | false =>
      cases s with
      | nil => rfl
      | cons c r =>
        rw [replaceMarker_cons_general c r hp]
        have hlen : r.length < n := by rw [← hs]; simp
        have ih2 := ih r.length hlen r rfl
        simp only [countQ, List.count_cons] at ih2 ⊢
        rw [show List.count qc (replaceMarker r) = List.count qc r from by
          simpa [countQ] using ih2]

lemma countQ_replaceMarker (s : Str) : countQ (replaceMarker s) = countQ s :=
  countQ_replaceMarker_aux s.length s rfl

/-- A three-quote query containing a scope marker and a matched literal
followed by an unmatched one. -/
def odd3Q : Str :=
  "SELECT a FROM t WHERE user_id = {user_id} AND x = ".toList ++
    qc :: ("p%q".toList ++ qc :: (" AND y = ".toList ++ qc :: "tail".toList))

/-- C7 as amended: for every query text with an odd number of single
quotes the escaper does not reject: matched quote pairs are escaped left
to right, the text from the final unmatched quote onward passes through
unchanged, binding returns a (template, parameters) pair normally with
placeholders counted only in the segments outside the matched literals,
and the query is dispatched to the driver. -/
theorem odd_quote_corrected :
    (∀ (ps : List (Str × Str)) (a b : Str),
      (∀ p ∈ ps, qc ∉ p.1 ∧ qc ∉ p.2) → qc ∉ a → qc ∉ b →
      escapeLiterals (oddText ps a b) = oddEscaped ps a b) ∧
    ∀ (s : Str) (uid : Int), countQ s % 2 = 1 →
      ∃ (ps : List (Str × Str)) (a b : Str),
        (∀ p ∈ ps, qc ∉ p.1 ∧ qc ∉ p.2) ∧ qc ∉ a ∧ qc ∉ b ∧
        replaceMarker s = oddText ps a b ∧
        prepare_query_parameters s uid =
          (oddEscaped ps a b,
            List.replicate ((ps.map (fun p => countPS p.1)).sum + countPS a) uid) ∧
        ∀ (g : Guard) (d : Driver) (now : Str), (g s uid).1 = true →
          (execute_query g d now s uid).2 =
            [(oddEscaped ps a b,
              List.replicate ((ps.map (fun p => countPS p.1)).sum + countPS a)
                uid)] := by
  refine ⟨fun ps a b hps ha hb => escapeLiterals_oddText ps a b hps ha hb, ?_⟩
  intro s uid hodd
  have hct : countQ (replaceMarker s) = countQ s := countQ_replaceMarker s
  have heven : (splitq (replaceMarker s)).length % 2 = 0 := by
    rw [splitq_length, hct]
    omega
  obtain ⟨hpairs, hqa, hqb⟩ :=
    pairUp_no_quote (splitq (replaceMarker s)) (splitq_parts_no_quote _)
  have hjoin := pairUp_joinQ (splitq (replaceMarker s)) heven (splitq_ne_nil _)
  rw [joinQ_splitq] at hjoin
  have hesc := escapeLiterals_oddText _ _ _ hpairs hqa hqb
  have hcnt := phCount_oddEscaped _ _ _ hpairs hqa hqb
  have hprep : prepare_query_parameters s uid =
      (oddEscaped (pairUp (splitq (replaceMarker s))).1
          (pairUp (splitq (replaceMarker s))).2.1
          (pairUp (splitq (replaceMarker s))).2.2,
        List.replicate
          (((pairUp (splitq (replaceMarker s))).1.map (fun p => countPS p.1)).sum +
            countPS (pairUp (splitq (replaceMarker s))).2.1) uid) := by
    show (escapeLiterals (replaceMarker s),
      List.replicate (phCount (escapeLiterals (replaceMarker s))) uid) = _
    conv_lhs => rw [hjoin]
    rw [hesc, hcnt]
  refine ⟨(pairUp (splitq (replaceMarker s))).1,
    (pairUp (splitq (replaceMarker s))).2.1,
    (pairUp (splitq (replaceMarker s))).2.2,
    hpairs, hqa, hqb, hjoin, hprep, ?_⟩
  intro g d now hg
  rw [execute_query_dispatch g d now s uid hg, hprep]

/-- Witness for C7's amended statement: a two-literal escape instance and
the decomposition of a concrete three-quote, marker-containing query. -/
theorem odd_quote_corrected_w :
    escapeLiterals
        (oddText [("u = ".toList, "a%b".toList)] "v = ".toList "w%s".toList) =
      oddEscaped [("u = ".toList, "a%b".toList)] "v = ".toList "w%s".toList ∧
    ∃ (ps : List (Str × Str)) (a b : Str),
      (∀ p ∈ ps, qc ∉ p.1 ∧ qc ∉ p.2) ∧ qc ∉ a ∧ qc ∉ b ∧
      replaceMarker odd3Q = oddText ps a b ∧
      prepare_query_parameters odd3Q 7 =
        (oddEscaped ps a b,
          List.replicate ((ps.map (fun p => countPS p.1)).sum + countPS a) 7) ∧
      ∀ (g : Guard) (d : Driver) (now : Str), (g odd3Q 7).1 = true →
        (execute_query g d now odd3Q 7).2 =
          [(oddEscaped ps a b,
            List.replicate ((ps.map (fun p => countPS p.1)).sum + countPS a) 7)] :=
  ⟨odd_quote_corrected.1 [("u = ".toList, "a%b".toList)] "v = ".toList
      "w%s".toList (by decide) (by decide) (by decide),
    odd_quote_corrected.2 odd3Q 7 (by decide)⟩

end QESpec

namespace QESpec

/-- A query whose column name contains a forbidden keyword as a
substring. -/
def createdAtQ : Str := "SELECT created_at FROM logs WHERE user_id = %s".toList

/-- A query containing DROP as a standalone token bounded by a newline and
a space. -/
def nlDropQ : Str := "SELECT x FROM t WHERE user_id = %s\nDROP y".toList

/-- Counterexample to C5: test_query_syntax reports the created_at query
as containing the forbidden keyword CREATE and marks it invalid, and
validate_sql_structure accepts a query whose standalone DROP token is
bounded by a newline instead of spaces. -/
theorem forbidden_keyword_cex :
    ( test_query_syntax [] createdAtQ).dangerous_keywords = ["CREATE".toList] ∧
    ( test_query_syntax [] createdAtQ).syntax_valid = false ∧
    validate_sql_structure nlDropQ = true := by decide

/-- C5 as amended: validate_sql_structure rejects every query whose
uppercased text contains a forbidden keyword bounded by space characters,
or starting the string followed by a space; it does not reject the
created_at query; test_query_syntax, however, reports any substring
occurrence (such as CREATE inside created_at) and marks the query
invalid. -/
theorem forbidden_keyword_corrected :
    (∀ s kw : Str, kw ∈ dangerousKeywords →
      ((∃ x y, toUpperL s = x ++ ((' ' :: (kw ++ [' '])) ++ y)) ∨
        (kw ++ [' ']).isPrefixOf (toUpperL s) = true) →
      validate_sql_structure s = false) ∧
    validate_sql_structure createdAtQ = true ∧
    ( test_query_syntax [] createdAtQ).dangerous_keywords = ["CREATE".toList] ∧
    ( test_query_syntax [] createdAtQ).syntax_valid = false := by
  refine ⟨?_, by decide, by decide, by decide⟩
  intro s kw hkw hocc
  have hany : dangerousKeywords.any (fun k =>
      containsSub (toUpperL s) (' ' :: (k ++ [' '])) ||
        (k ++ [' ']).isPrefixOf (toUpperL s)) = true := by
    refine List.any_eq_true.mpr ⟨kw, hkw, ?_⟩
    rcases hocc with ⟨x, y, hxy⟩ | hp
    · have : containsSub (toUpperL s) (' ' :: (kw ++ [' '])) = true := by
        rw [hxy]
        exact containsSub_of_mid x _ y
      simp [this]
    · simp [hp]
  unfold validate_sql_structure
  simp [hany]

/-- Witness for C5's amended statement at a concrete space-bounded DROP. -/
theorem forbidden_keyword_corrected_w :
    validate_sql_structure "SELECT a FROM t WHERE user_id = %s AND DROP b".toList =
      false :=
  forbidden_keyword_corrected.1
    "SELECT a FROM t WHERE user_id = %s AND DROP b".toList "DROP".toList
    (by decide)
    (Or.inl ⟨"SELECT A FROM T WHERE USER_ID = %S AND".toList, "B".toList, by decide⟩)

end QESpec

namespace QESpec

/-- First query of the batch example. -/
def q1ex : Str := "SELECT a FROM t1 WHERE user_id = {user_id}".toList

/-- Second query of the batch example, the one the guard rejects. -/
def q2Bad : Str := "SELECT b".toList

/-- Third query of the batch example. -/
def q3ex : Str := "SELECT c FROM t3 WHERE user_id = {user_id}".toList

/-- A guard rejecting exactly the second batch query. -/
def gRejSecond : Guard := fun q _ => (!(q == q2Bad), "unsafe".toList)

/-- C6: batch execution runs queries sequentially in input order and stops
at the first failure, returning the partial outcome list including the
failing one; in the three-query example with the second rejected, exactly
two outcomes are returned and the third query is never dispatched. -/
theorem execute_multiple_fail_fast (g : Guard) (d : Driver) (now : Str)
    (queries : List Str) (uid : Int) :
    (((execute_multiple_queries g d now queries uid).1.map (fun r => r.query)) <+:
        queries ∧
      (((∀ r ∈ (execute_multiple_queries g d now queries uid).1,
            r.success = true) ∧
          (execute_multiple_queries g d now queries uid).1.length =
            queries.length) ∨
        ∃ l x, (execute_multiple_queries g d now queries uid).1 = l ++ [x] ∧
          x.success = false ∧ ∀ r ∈ l, r.success = true)) ∧
    ((execute_multiple_queries gRejSecond dOkEmpty [] [q1ex, q2Bad, q3ex] 5).1.map
        (fun r => (r.query, r.success)) = [(q1ex, true), (q2Bad, false)] ∧
      (execute_multiple_queries gRejSecond dOkEmpty [] [q1ex, q2Bad, q3ex] 5).2.length
        = 1) :=
  ⟨⟨execute_multiple_go_ordered g d now uid queries 0,
    execute_multiple_go_fail_fast g d now uid queries 0⟩, by decide⟩

/-- Witness for C6 at the concrete three-query batch. -/
theorem execute_multiple_fail_fast_w :
    ((execute_multiple_queries gRejSecond dOkEmpty [] [q1ex, q2Bad, q3ex] 5).1.map
      (fun r => r.query)) <+: [q1ex, q2Bad, q3ex] :=
  (execute_multiple_fail_fast gRejSecond dOkEmpty [] [q1ex, q2Bad, q3ex] 5).1.1

/-- Counterexample to C2: with a guard that rejects every query,
execute_query never contacts the driver, yet get_query_statistics still
dispatches its counting query and reports success — the statistics path
does not run the security validation step. -/
theorem get_query_statistics_guard_cex :
    (execute_query gRejAll dCount5 [] exScopedQ 1).2 = [] ∧
    (get_query_statistics gRejAll dCount5 [] exScopedQ 1).2.length = 1 ∧
    (get_query_statistics gRejAll dCount5 [] exScopedQ 1).1.success = true := by
  decide

/-- C2 as amended: get_query_statistics wraps the query in a counting
subquery, prepares parameters exactly as execute_query does, and
dispatches exactly once directly to the driver; its result is independent
of the security guard, and a successful result carries only the row count,
the size bucket and the column names. -/
theorem get_query_statistics_corrected (g g2 : Guard) (d : Driver) (now q : Str)
    (uid : Int) :
    (get_query_statistics g d now q uid).2 =
      [((prepare_query_parameters (wrapStats q) uid).1,
        (prepare_query_parameters (wrapStats q) uid).2)] ∧
    get_query_statistics g d now q uid = get_query_statistics g2 d now q uid ∧
    (∀ (r : DriverOutcome) (row : Row) (rest : List Row) (n : Int),
      d (prepare_query_parameters (wrapStats q) uid).1
          (prepare_query_parameters (wrapStats q) uid).2 = .ok r →
      r.success = true → r.results = row :: rest →
      rowLookup totalRowsKey row = some (.intV n) →
      (get_query_statistics g d now q uid).1 =
        { success := true, total_rows := some n,
          estimated_size := some (estimate_result_size n r.columns),
          columns := some r.columns, query := q, timestamp := now }) := by
  refine ⟨?_, rfl, ?_⟩
  · unfold get_query_statistics
    cases hd : d (prepare_query_parameters (wrapStats q) uid).1
        (prepare_query_parameters (wrapStats q) uid).2 with
    | exn e => simp [hd]
    | ok r =>
      by_cases hs : r.success = true
      · cases hres : r.results with
        | nil => simp [hd, hs, hres]
        | cons row rest =>
          cases hlk : rowLookup totalRowsKey row with
          | none => simp [hd, hs, hres, hlk]
          | some v => cases v <;> simp [hd, hs, hres, hlk]
      · simp [hd, hs]
  · intro r row rest n hd hs hres hlk
    unfold get_query_statistics
    dsimp only
    rw [hd]
    simp [hs, hres, hlk]

/-- Witness for C2's amended statement at a concrete counting driver. -/
theorem get_query_statistics_corrected_w :
    (get_query_statistics gOkAll dCount5 [] exScopedQ 1).1 =
      { success := true, total_rows := some 5,
        estimated_size := some (estimate_result_size 5 ["total_rows".toList]),
        columns := some ["total_rows".toList], query := exScopedQ,
        timestamp := [] } :=
  (get_query_statistics_corrected gOkAll gRejAll dCount5 [] exScopedQ 1).2.2
    { success := true, results := [[("total_rows".toList, Value.intV 5)]],
      row_count := 1, columns := ["total_rows".toList], error := [] }
    [("total_rows".toList, Value.intV 5)] [] 5 rfl rfl rfl (by decide)

end QESpec
